import Mathlib

/-!
Verification development for the `imagine_galmag` adapter
(`src/imagine_galmag/field.py`), which wraps GalMag's disk and halo
magnetic-field generators as IMAGINE field plugins.

Shallow embedding choices:
* astropy quantities are modelled as a rational value together with a unit;
  a unit is a rational scale factor (relative to the base system cm / s /
  gauss) together with integer dimension exponents for length, time and
  magnetic field strength;
* the shared `self.parameters` dictionary is modelled as an association
  list with dictionary semantics (first-match lookup, in-place overwrite on
  set, key removal on erase);
* the wrapped generator `get_B_field` is an abstract function parameter;
  each `compute_field` run additionally records the list of parameter
  mappings passed to the generator, so that claims about "the generator is
  (not) invoked" and "the mapping given to the generator" become statements
  about that trace;
* exceptions (KeyError, unit conversion errors, ValueError from `max()` of
  an empty sequence, errors inside the generator) are modelled with
  `Except`.
-/

/-- Dimension exponents of a unit: length, time, magnetic field strength. -/
structure Dim where
  L : Int
  T : Int
  B : Int
deriving DecidableEq, Repr

/-- Unit of an astropy quantity: a scale factor to the base system
(cm, s, gauss) and dimension exponents. -/
structure AUnit where
  scale : ℚ
  dim : Dim
deriving DecidableEq, Repr

def Dim.mulD (d e : Dim) : Dim := ⟨d.L + e.L, d.T + e.T, d.B + e.B⟩

def Dim.divD (d e : Dim) : Dim := ⟨d.L - e.L, d.T - e.T, d.B - e.B⟩

def AUnit.mulU (u v : AUnit) : AUnit := ⟨u.scale * v.scale, u.dim.mulD v.dim⟩

def AUnit.divU (u v : AUnit) : AUnit := ⟨u.scale / v.scale, u.dim.divD v.dim⟩

/-- Centimetres per kiloparsec (astropy: 3.0856775814913673e21). -/
def kpc_cm : ℚ := 30856775814913673 * 100000

/-- Unit u.kpc. -/
def kpc : AUnit := ⟨kpc_cm, ⟨1, 0, 0⟩⟩

/-- Unit 1/u.s. -/
def one_per_s : AUnit := ⟨1, ⟨0, -1, 0⟩⟩

/-- Unit u.cm*u.cm/u.s. -/
def cm2_per_s : AUnit := ⟨1, ⟨2, -1, 0⟩⟩

/-- Unit u.km/u.s. -/
def km_per_s : AUnit := ⟨100000, ⟨1, -1, 0⟩⟩

/-- Unit u.microgauss. -/
def microgauss : AUnit := ⟨1 / 1000000, ⟨0, 0, 1⟩⟩

/-- Errors that a `compute_field` run can raise. -/
inductive GErr where
  | keyError (key : String)
  | unitError
  | typeError
  | valueError
  | genError (msg : String)
deriving DecidableEq, Repr

/-- Values stored in the parameter dictionary: plain numbers, dimensioned
quantities, numeric arrays (the injected mode-normalization array), and the
switch-like field options (booleans, strings, profile functions modelled as
opaque named tags). -/
inductive PVal where
  | num (x : ℚ)
  | qty (x : ℚ) (u : AUnit)
  | arr (xs : List ℚ)
  | bool (b : Bool)
  | str (s : String)
  | func (name : String)
deriving DecidableEq, Repr

/-- Python dictionary with string keys, as an association list. -/
abbrev PMap := List (String × PVal)

/-- Dictionary lookup (first match). -/
def alistGet {α : Type} : List (String × α) → String → Option α
  | [], _ => none
  | (k₀, v₀) :: rest, k => if k₀ = k then some v₀ else alistGet rest k

/-- Dictionary assignment: overwrite in place if the key exists, otherwise
append at the end (Python dict insertion order). -/
def pmapSet : PMap → String → PVal → PMap
  | [], k, v => [(k, v)]
  | (k₀, v₀) :: rest, k, v =>
    if k₀ = k then (k, v) :: rest else (k₀, v₀) :: pmapSet rest k v

/-- Dictionary deletion of a key (`del d[k]`): every binding of the key is
dropped (a Python dict holds at most one). -/
def pmapErase : PMap → String → PMap
  | [], _ => []
  | (k₀, v₀) :: rest, k =>
    if k₀ = k then pmapErase rest k else (k₀, v₀) :: pmapErase rest k

/-- Python `d.update(other)`: assign every entry of `other` into `d`. -/
def pmapUpdate (m : PMap) : PMap → PMap
  | [] => m
  | (k, v) :: rest => pmapUpdate (pmapSet m k v) rest

/-- Result of the astropy expression `(v << u).value`:
a plain number gets the unit attached and keeps its numeric value; a plain
array likewise keeps its data; a quantity is converted to `u`, raising a
unit-conversion error when the dimensions differ; anything else is a type
error. -/
def astShiftVal : PVal → AUnit → Except GErr PVal
  | .num x, _ => .ok (.num x)
  | .arr xs, _ => .ok (.arr xs)
  | .qty x u₀, u =>
    if u₀.dim = u.dim then .ok (.num (x * u₀.scale / u.scale)) else .error .unitError
  | _, _ => .error .typeError

/-- Scalar result of `(v << u.microgauss).value` as appended by the mode
loop of `GalMagDiskField.compute_field`: the shifted value must be a plain
number. -/
def mode_to_microgauss (v : PVal) : Except GErr ℚ :=
  match astShiftVal v microgauss with
  | .ok (.num x) => .ok x
  | .ok _ => .error .typeError
  | .error e => .error e

/-- Quantity/number multiplication, astropy semantics. -/
def PVal.mulP : PVal → PVal → Except GErr PVal
  | .num a, .num b => .ok (.num (a * b))
  | .num a, .qty b u => .ok (.qty (a * b) u)
  | .qty a u, .num b => .ok (.qty (a * b) u)
  | .qty a u, .qty b v => .ok (.qty (a * b) (u.mulU v))
  | _, _ => .error .typeError

/-- Quantity/number division, astropy semantics. -/
def PVal.divP : PVal → PVal → Except GErr PVal
  | .num a, .num b => .ok (.num (a / b))
  | .num a, .qty b u => .ok (.qty (a / b) (AUnit.divU ⟨1, ⟨0, 0, 0⟩⟩ u))
  | .qty a u, .num b => .ok (.qty (a / b) u)
  | .qty a u, .qty b v => .ok (.qty (a / b) (u.divU v))
  | _, _ => .error .typeError

/-- Unary negation. -/
def PVal.negP : PVal → Except GErr PVal
  | .num a => .ok (.num (-a))
  | .qty a u => .ok (.qty (-a) u)
  | _ => .error .typeError

/-- astropy `q.to_value(u.dimensionless_unscaled)`: requires a quantity of
dimension zero; folds the residual unit scale into the value. On a plain
number (no `to_value` attribute) this is an attribute/type error. -/
def PVal.to_value_dimensionless : PVal → Except GErr ℚ
  | .qty x u => if u.dim = (⟨0, 0, 0⟩ : Dim) then .ok (x * u.scale) else .error .unitError
  | _ => .error .typeError

/-- Python `s.startswith(pat)` over character lists. -/
def startsWithChars : List Char → List Char → Bool
  | _, [] => true
  | [], _ :: _ => false
  | c :: cs, d :: ds => c == d && startsWithChars cs ds

/-- Python substring containment `pat in s` over character lists. -/
def containsChars : List Char → List Char → Bool
  | [], pat => pat.isEmpty
  | c :: cs, pat => startsWithChars (c :: cs) pat || containsChars cs pat

/-- Decimal digit run accumulator for `int()`. -/
def parseDigitsAux : List Char → ℕ → Option ℕ
  | [], acc => some acc
  | c :: cs, acc =>
    if c.isDigit then parseDigitsAux cs (acc * 10 + (c.toNat - '0'.toNat))
    else none

/-- One or more decimal digits; `int('')` raises. -/
def parseDigits : List Char → Option ℕ
  | [] => none
  | cs => parseDigitsAux cs 0

/-- Python `int(s)` over character lists: optional sign followed by one or
more decimal digits; anything else raises a ValueError. -/
def parseIntChars : List Char → Option Int
  | '-' :: cs => (parseDigits cs).map (fun n => -(n : Int))
  | '+' :: cs => (parseDigits cs).map (fun n => (n : Int))
  | cs => (parseDigits cs).map (fun n => (n : Int))

/-- Left-to-right effectful map over a list, short-circuiting on the first
error, exactly like a Python loop that appends to an accumulator. -/
def mapExcept {α β : Type} (f : α → Except GErr β) : List α → Except GErr (List β)
  | [] => .ok []
  | a :: as =>
    match f a with
    | .error e => .error e
    | .ok b =>
      match mapExcept f as with
      | .error e => .error e
      | .ok bs => .ok (b :: bs)

/-- Per-entry body of the conversion loop of
`GalMagMagneticFieldBase.compute_field` (field.py lines 59-64): entries
whose name is in the unit table are converted to the table's unit and
reduced to their bare value; other entries pass through unchanged. -/
def convertOne (param_units : List (String × AUnit)) (k : String) (v : PVal) :
    Except GErr PVal :=
  match alistGet param_units k with
  | some u => astShiftVal v u
  | none => .ok v

/-- Conversion loop of `GalMagMagneticFieldBase.compute_field`: builds the
fresh `parameters` dictionary from `self.parameters`. -/
def convertParams (param_units : List (String × AUnit)) : PMap → Except GErr PMap
  | [] => .ok []
  | (k, v) :: rest =>
    match convertOne param_units k v with
    | .error e => .error e
    | .ok w =>
      match convertParams param_units rest with
      | .error e => .error e
      | .ok ws => .ok ((k, w) :: ws)

/-- Native GalMag field object returned by `get_B_field`: the three
computed component arrays, each abstracted to a single value. -/
structure NativeField where
  x : ℚ
  y : ℚ
  z : ℚ
deriving DecidableEq, Repr

/-- Output array of `compute_field`: shape, the three trailing component
slots (each component array abstracted to one value) and the attached unit. -/
structure BArray where
  shape : ℕ × ℕ × ℕ × ℕ
  data : Fin 3 → ℚ
  unit : AUnit

/-- Modelled from the spec: `self.data_shape` is an attribute of the
surrounding IMAGINE framework (not part of src/); for a magnetic field it
is the grid resolution with a trailing component axis of size 3, per spec
section 4.1: "Allocate an output array shaped
(resolution-x, resolution-y, resolution-z, 3)". -/
def data_shape (res : ℕ × ℕ × ℕ) : ℕ × ℕ × ℕ × ℕ := (res.1, res.2.1, res.2.2, 3)

/-- Lines 74-80 of field.py: allocate `np.empty(self.data_shape)` (junk
contents, modelled as zeros), write the native components into trailing
slots 0, 1, 2 in the order x, y, z, and attach microgauss units. -/
def buildBArray (res : ℕ × ℕ × ℕ) (B : NativeField) : BArray :=
  let d₀ : Fin 3 → ℚ := fun _ => 0
  let d₁ := Function.update d₀ 0 B.x
  let d₂ := Function.update d₁ 1 B.y
  let d₃ := Function.update d₂ 2 B.z
  ⟨data_shape res, d₃, microgauss⟩

/-- The wrapped generator's `get_B_field`, abstracted: it receives the
merged parameter mapping and either returns a native field or raises. -/
def GenFun := PMap → Except GErr NativeField

/-- Everything observable about one `compute_field` call: the returned
value or exception, the contents of `self.parameters` after the call, the
cache (`self.galmag`) after the call, and the trace of parameter mappings
passed to the wrapped generator during the call. -/
structure CallResult where
  result : Except GErr BArray
  params : PMap
  galmag : Option NativeField
  genCalls : List PMap

/-- Boolean success observer for a call result. -/
def exceptOk {α : Type} : Except GErr α → Bool
  | .ok _ => true
  | .error _ => false

/-- `GalMagMagneticFieldBase.compute_field` (field.py lines 53-80).
`seed` is accepted and ignored. On a cache hit the generator is skipped
entirely; otherwise the parameters are converted, overlaid with the fixed
options, and handed to the generator; the result is cached when the
keep flag is set. `self.parameters` is never modified here. -/
def base_compute_field (gen : GenFun) (param_units : List (String × AUnit))
    (field_options : PMap) (res : ℕ × ℕ × ℕ) (keep : Bool)
    (galmag : Option NativeField) (params : PMap) (seed : ℕ) : CallResult :=
  match galmag with
  | some B => ⟨.ok (buildBArray res B), params, some B, []⟩
  | none =>
    match convertParams param_units params with
    | .error e => ⟨.error e, params, none, []⟩
    | .ok conv =>
      let merged := pmapUpdate conv field_options
      match gen merged with
      | .error e => ⟨.error e, params, none, [merged]⟩
      | .ok B =>
        ⟨.ok (buildBArray res B), params, if keep then some B else none, [merged]⟩

namespace GalMagDiskField

def PARAMETER_NAMES : List String :=
  ["disk_height",
   "disk_radius",
   "disk_regularization_radius",
   "disk_ref_r_cylindrical",
   "disk_shear_normalization",
   "disk_turbulent_diffusivity",
   "disk_alpha_effect"]

def PARAMETER_UNITS : List (String × AUnit) :=
  [("disk_height", kpc),
   ("disk_radius", kpc),
   ("disk_regularization_radius", kpc),
   ("disk_ref_r_cylindrical", kpc),
   ("disk_shear_normalization", one_per_s),
   ("disk_turbulent_diffusivity", cm2_per_s),
   ("disk_alpha_effect", km_per_s)]

/-- Name of the normalization parameter of the i-th mode
(`'mode_:d'.format(i)`). -/
def mode_name (i : ℕ) : String := "mode_" ++ toString i

/-- `parameter_names` property: the declared names plus one `mode_i`
entry per mode, 1-based. -/
def parameter_names (nModes : ℕ) : List String :=
  PARAMETER_NAMES ++ (List.range nModes).map (fun i => mode_name (i + 1))

/-- `parameter_units` property: the per-mode microgauss entries updated
with `PARAMETER_UNITS`. The two key sets are disjoint, so the dict update
is a plain append. -/
def parameter_units (nModes : ℕ) : List (String × AUnit) :=
  ((List.range nModes).map (fun i => (mode_name (i + 1), microgauss))) ++ PARAMETER_UNITS

/-- Python substring test `'mode_' in k`. -/
def has_mode_sub (k : String) : Bool :=
  containsChars k.toList "mode_".toList

/-- Python `int(k[5:])`: parse the key from position 5 onward, raising a
ValueError when it is not an integer literal. -/
def parse_from_5 (k : String) : Except GErr Int :=
  match parseIntChars (k.toList.drop 5) with
  | some n => .ok n
  | none => .error .valueError

/-- Mode-count inference of `GalMagDiskField.__init__` when
`number_of_modes is None` (field.py line 115):
`max([int(k[5:]) for k in parameters if 'mode_' in k])`. The comprehension
parses every key containing the substring first; `max` of an empty
sequence raises a ValueError. -/
def infer_number_of_modes (param_keys : List String) : Except GErr Int :=
  match mapExcept parse_from_5 (param_keys.filter has_mode_sub) with
  | .error e => .error e
  | .ok [] => .error .valueError
  | .ok (n :: ns) => .ok (ns.foldl max n)

/-- Mode-normalization loop of `GalMagDiskField.compute_field`
(field.py lines 149-155): for each 1-based mode index, the parameter value
converted to microgauss when present, zero when absent. -/
def disk_mode_norm (nModes : ℕ) (params : PMap) : Except GErr (List ℚ) :=
  mapExcept
    (fun i =>
      match alistGet params (mode_name (i + 1)) with
      | some v => mode_to_microgauss v
      | none => .ok 0)
    (List.range nModes)

/-- Ralpha of the disk variant (field.py line 166):
`(h*alpha/beta).to_value(u.dimensionless_unscaled)`. -/
def disk_Ralpha (h alpha beta : PVal) : Except GErr ℚ :=
  match h.mulP alpha with
  | .error e => .error e
  | .ok ha =>
    match ha.divP beta with
    | .error e => .error e
    | .ok q => q.to_value_dimensionless

/-- Romega of the disk variant (field.py line 169):
`(h**2*S/beta).to_value(u.dimensionless_unscaled)`; `h**2` squares the
value and the unit. -/
def disk_Romega (h S beta : PVal) : Except GErr ℚ :=
  match h.mulP h with
  | .error e => .error e
  | .ok h2 =>
    match h2.mulP S with
    | .error e => .error e
    | .ok h2S =>
      match h2S.divP beta with
      | .error e => .error e
      | .ok q => q.to_value_dimensionless

/-- Default `_field_options` recorded by `GalMagDiskField.__init__`. -/
def disk_field_options : PMap :=
  [("disk_shear_function", .func "Clemens_Milky_Way_shear_rate"),
   ("disk_rotation_function", .func "Clemens_Milky_Way_rotation_curve"),
   ("disk_height_function", .func "exponential_scale_height"),
   ("disk_field_decay", .bool true),
   ("disk_newman_boundary_condition_envelope", .bool false)]

/-- `GalMagDiskField.compute_field` (field.py lines 147-180), with the
state of `self.parameters` and `self.galmag` passed explicitly. Mutation
order follows the source: build the mode array from the current mapping,
inject `disk_modes_normalization`, read the four physical parameters
(KeyError when absent), inject `disk_turbulent_induction`, compute the
dynamo number, inject `disk_dynamo_number`, call the base implementation,
and only on the success path delete the three temporary keys. -/
def compute_field (gen : GenFun) (nModes : ℕ) (field_options : PMap)
    (res : ℕ × ℕ × ℕ) (keep : Bool) (galmag : Option NativeField)
    (params : PMap) (seed : ℕ) : CallResult :=
  match disk_mode_norm nModes params with
  | .error e => ⟨.error e, params, galmag, []⟩
  | .ok norm =>
    let p₁ := pmapSet params "disk_modes_normalization" (.arr norm)
    match alistGet p₁ "disk_height" with
    | none => ⟨.error (.keyError "disk_height"), p₁, galmag, []⟩
    | some h =>
      match alistGet p₁ "disk_shear_normalization" with
      | none => ⟨.error (.keyError "disk_shear_normalization"), p₁, galmag, []⟩
      | some S =>
        match alistGet p₁ "disk_alpha_effect" with
        | none => ⟨.error (.keyError "disk_alpha_effect"), p₁, galmag, []⟩
        | some alpha =>
          match alistGet p₁ "disk_turbulent_diffusivity" with
          | none => ⟨.error (.keyError "disk_turbulent_diffusivity"), p₁, galmag, []⟩
          | some beta =>
            match disk_Ralpha h alpha beta with
            | .error e => ⟨.error e, p₁, galmag, []⟩
            | .ok Ralpha =>
              let p₂ := pmapSet p₁ "disk_turbulent_induction" (.num Ralpha)
              match disk_Romega h S beta with
              | .error e => ⟨.error e, p₂, galmag, []⟩
              | .ok Romega =>
                let p₃ := pmapSet p₂ "disk_dynamo_number" (.num (Ralpha * Romega))
                let r := base_compute_field gen (parameter_units nModes)
                  field_options res keep galmag p₃ seed
                match r.result with
                | .error e => ⟨.error e, r.params, r.galmag, r.genCalls⟩
                | .ok out =>
                  let pf := pmapErase (pmapErase (pmapErase r.params
                    "disk_modes_normalization") "disk_dynamo_number")
                    "disk_turbulent_induction"
                  ⟨.ok out, pf, r.galmag, r.genCalls⟩

end GalMagDiskField

namespace GalMagHaloField

def PARAMETER_NAMES : List String :=
  ["halo_radius",
   "halo_ref_radius",
   "halo_ref_z",
   "halo_ref_Bphi",
   "halo_rotation_characteristic_radius",
   "halo_rotation_characteristic_height",
   "halo_rotation_normalization",
   "halo_turbulent_diffusivity",
   "halo_alpha_effect"]

def PARAMETER_UNITS : List (String × AUnit) :=
  [("halo_radius", kpc),
   ("halo_ref_radius", kpc),
   ("halo_ref_z", kpc),
   ("halo_ref_Bphi", microgauss),
   ("halo_rotation_characteristic_radius", kpc),
   ("halo_rotation_characteristic_height", kpc),
   ("halo_rotation_normalization", km_per_s),
   ("halo_turbulent_diffusivity", cm2_per_s),
   ("halo_alpha_effect", km_per_s)]

/-- Ralpha of the halo variant (field.py line 245):
`(r*alpha/beta).to_value(u.dimensionless_unscaled)`. -/
def halo_Ralpha (r alpha beta : PVal) : Except GErr ℚ :=
  match r.mulP alpha with
  | .error e => .error e
  | .ok ra =>
    match ra.divP beta with
    | .error e => .error e
    | .ok q => q.to_value_dimensionless

/-- Romega of the halo variant (field.py line 248):
`(-r*V/beta).to_value(u.dimensionless_unscaled)`. -/
def halo_Romega (r V beta : PVal) : Except GErr ℚ :=
  match r.negP with
  | .error e => .error e
  | .ok nr =>
    match nr.mulP V with
    | .error e => .error e
    | .ok nrV =>
      match nrV.divP beta with
      | .error e => .error e
      | .ok q => q.to_value_dimensionless

/-- Default `_field_options` recorded by `GalMagHaloField.__init__`. -/
def halo_field_options : PMap :=
  [("halo_n_free_decay_modes", .num 4),
   ("halo_growing_mode_only", .bool false),
   ("halo_compute_only_one_quadrant", .bool true),
   ("halo_Galerkin_ngrid", .num 501),
   ("halo_symmetric_field", .bool true),
   ("halo_dynamo_type", .str "alpha2-omega"),
   ("halo_rotation_function", .func "simple_V"),
   ("halo_alpha_function", .func "simple_alpha")]

/-- `GalMagHaloField.compute_field` (field.py lines 237-258): read the
four physical parameters (KeyError when absent, before any injection),
inject `halo_turbulent_induction`, compute Romega, inject
`halo_rotation_induction`, call the base implementation, and only on the
success path delete the two temporary keys. -/
def compute_field (gen : GenFun) (field_options : PMap)
    (res : ℕ × ℕ × ℕ) (keep : Bool) (galmag : Option NativeField)
    (params : PMap) (seed : ℕ) : CallResult :=
  match alistGet params "halo_radius" with
  | none => ⟨.error (.keyError "halo_radius"), params, galmag, []⟩
  | some r =>
    match alistGet params "halo_rotation_normalization" with
    | none => ⟨.error (.keyError "halo_rotation_normalization"), params, galmag, []⟩
    | some V =>
      match alistGet params "halo_turbulent_diffusivity" with
      | none => ⟨.error (.keyError "halo_turbulent_diffusivity"), params, galmag, []⟩
      | some beta =>
        match alistGet params "halo_alpha_effect" with
        | none => ⟨.error (.keyError "halo_alpha_effect"), params, galmag, []⟩
        | some alpha =>
          match halo_Ralpha r alpha beta with
          | .error e => ⟨.error e, params, galmag, []⟩
          | .ok Ralpha =>
            let p₁ := pmapSet params "halo_turbulent_induction" (.num Ralpha)
            match halo_Romega r V beta with
            | .error e => ⟨.error e, p₁, galmag, []⟩
            | .ok Romega =>
              let p₂ := pmapSet p₁ "halo_rotation_induction" (.num Romega)
              let r' := base_compute_field gen PARAMETER_UNITS field_options
                res keep galmag p₂ seed
              match r'.result with
              | .error e => ⟨.error e, r'.params, r'.galmag, r'.genCalls⟩
              | .ok out =>
                let pf := pmapErase (pmapErase r'.params
                  "halo_rotation_induction") "halo_turbulent_induction"
                ⟨.ok out, pf, r'.galmag, r'.genCalls⟩

end GalMagHaloField

/-- Concrete generator used in witnesses and counterexamples: always
succeeds with a fixed native field. -/
def gen0 : GenFun := fun _ => .ok ⟨1, 2, 3⟩

/-- Concrete disk parameter mapping on which a `compute_field` call
succeeds: one mode plus the four physical parameters read by the
derived-number computation. -/
def disk_demo_params : PMap :=
  [("mode_1", .qty 2 microgauss),
   ("disk_height", .qty 1 kpc),
   ("disk_shear_normalization", .qty 1 one_per_s),
   ("disk_alpha_effect", .qty 1 km_per_s),
   ("disk_turbulent_diffusivity", .qty 1 cm2_per_s)]

/-- Concrete halo parameter mapping on which a `compute_field` call
succeeds. -/
def halo_demo_params : PMap :=
  [("halo_radius", .qty 2 kpc),
   ("halo_rotation_normalization", .qty 1 km_per_s),
   ("halo_turbulent_diffusivity", .qty 1 cm2_per_s),
   ("halo_alpha_effect", .qty 1 km_per_s)]

/-- The successful disk mapping extended with an entry whose name is
declared nowhere (not a parameter name, not a unit-table name, not a fixed
option). -/
def stray_params : PMap :=
  disk_demo_params ++ [("not_a_galmag_param", .num 7)]

/-! Helper lemmas about the dictionary model. -/

theorem alistGet_pmapSet_self (m : PMap) (k : String) (v : PVal) :
    alistGet (pmapSet m k v) k = some v := by
  induction m with
  | nil => simp [pmapSet, alistGet]
  | cons kv rest ih =>
    obtain ⟨k₀, v₀⟩ := kv
    by_cases h : k₀ = k
    · simp [pmapSet, h, alistGet]
    · simpa [pmapSet, h, alistGet] using ih

theorem alistGet_pmapSet_other (m : PMap) (k k' : String) (v : PVal)
    (h : k ≠ k') : alistGet (pmapSet m k v) k' = alistGet m k' := by
  induction m with
  | nil => simp [pmapSet, alistGet, h]
  | cons kv rest ih =>
    obtain ⟨k₀, v₀⟩ := kv
    by_cases h₀ : k₀ = k
    · have h₁ : k₀ ≠ k' := by rw [h₀]; exact h
      simp [pmapSet, h₀, alistGet, h, h₁]
    · by_cases h₁ : k₀ = k'
      · simp [pmapSet, h₀, alistGet, h₁, Ne.symm h]
      · simpa [pmapSet, h₀, alistGet, h₁] using ih

theorem alistGet_pmapErase_self (m : PMap) (k : String) :
    alistGet (pmapErase m k) k = none := by
  induction m with
  | nil => rfl
  | cons kv rest ih =>
    obtain ⟨k₀, v₀⟩ := kv
    by_cases h : k₀ = k
    · simpa [pmapErase, h] using ih
    · simpa [pmapErase, h, alistGet] using ih

theorem alistGet_pmapErase_other (m : PMap) (k k' : String) (h : k ≠ k') :
    alistGet (pmapErase m k) k' = alistGet m k' := by
  induction m with
  | nil => rfl
  | cons kv rest ih =>
    obtain ⟨k₀, v₀⟩ := kv
    by_cases h₀ : k₀ = k
    · simpa [pmapErase, h₀, alistGet, h] using ih
    · by_cases h₁ : k₀ = k'
      · simp [pmapErase, h₀, alistGet, h₁, Ne.symm h]
      · simpa [pmapErase, h₀, alistGet, h₁] using ih

theorem alistGet_none_of_not_mem_keys {α : Type} (o : List (String × α))
    (k : String) (h : k ∉ o.map Prod.fst) : alistGet o k = none := by
  induction o with
  | nil => rfl
  | cons kv rest ih =>
    obtain ⟨k₀, v₀⟩ := kv
    simp only [List.map_cons, List.mem_cons] at h
    push_neg at h
    have h₀ : k₀ ≠ k := fun hc => h.1 hc.symm
    simpa [alistGet, h₀] using ih h.2

theorem alistGet_pmapUpdate_none (m o : PMap) (k : String)
    (h : alistGet o k = none) :
    alistGet (pmapUpdate m o) k = alistGet m k := by
  induction o generalizing m with
  | nil => rfl
  | cons kv rest ih =>
    obtain ⟨k₀, v₀⟩ := kv
    simp only [alistGet] at h
    by_cases h₀ : k₀ = k
    · simp [h₀] at h
    · simp only [h₀, if_false] at h
      rw [pmapUpdate, ih _ h, alistGet_pmapSet_other _ _ _ _ h₀]

theorem alistGet_pmapUpdate (m o : PMap) (k : String)
    (hnd : (o.map Prod.fst).Nodup) :
    alistGet (pmapUpdate m o) k
      = match alistGet o k with
        | some v => some v
        | none => alistGet m k := by
  induction o generalizing m with
  | nil => rfl
  | cons kv rest ih =>
    obtain ⟨k₀, v₀⟩ := kv
    simp only [List.map_cons, List.nodup_cons] at hnd
    by_cases h₀ : k₀ = k
    · have hrest : alistGet rest k = none := by
        apply alistGet_none_of_not_mem_keys
        rw [← h₀]; exact hnd.1
      rw [pmapUpdate, alistGet_pmapUpdate_none _ _ _ hrest]
      simp only [alistGet, h₀, if_true]
      exact alistGet_pmapSet_self m k v₀
    · rw [pmapUpdate, ih _ hnd.2]
      simp only [alistGet, h₀, if_false]
      cases alistGet rest k with
      | some v => rfl
      | none => simp [alistGet_pmapSet_other _ _ _ _ h₀]

/-! Helper lemmas about the effectful map. -/

theorem mapExcept_ok_length {α β : Type} (f : α → Except GErr β) :
    ∀ (l : List α) (ys : List β), mapExcept f l = .ok ys → ys.length = l.length := by
  intro l
  induction l with
  | nil =>
    intro ys h
    simp only [mapExcept, Except.ok.injEq] at h
    simp [← h]
  | cons a as ih =>
    intro ys h
    simp only [mapExcept] at h
    cases hfa : f a with
    | error e => rw [hfa] at h; exact absurd h (by simp)
    | ok b =>
      rw [hfa] at h
      cases hrec : mapExcept f as with
      | error e => rw [hrec] at h; exact absurd h (by simp)
      | ok bs =>
        rw [hrec] at h
        simp only [Except.ok.injEq] at h
        subst h
        simp [ih bs hrec]

theorem mapExcept_ok_getD {α β : Type} (f : α → Except GErr β) (da : α) (db : β) :
    ∀ (l : List α) (ys : List β), mapExcept f l = .ok ys →
      ∀ i, i < l.length → f (l.getD i da) = .ok (ys.getD i db) := by
  intro l
  induction l with
  | nil => intro ys _ i hi; simp at hi
  | cons a as ih =>
    intro ys h i hi
    simp only [mapExcept] at h
    cases hfa : f a with
    | error e => rw [hfa] at h; exact absurd h (by simp)
    | ok b =>
      rw [hfa] at h
      cases hrec : mapExcept f as with
      | error e => rw [hrec] at h; exact absurd h (by simp)
      | ok bs =>
        rw [hrec] at h
        simp only [Except.ok.injEq] at h
        subst h
        cases i with
        | zero => simpa using hfa
        | succ j =>
          simp only [List.getD_cons_succ]
          exact ih bs hrec j (by simpa using hi)

theorem mapExcept_mem_fwd {α β : Type} (f : α → Except GErr β) :
    ∀ (l : List α) (ys : List β), mapExcept f l = .ok ys →
      ∀ a ∈ l, ∃ b, f a = .ok b ∧ b ∈ ys := by
  intro l
  induction l with
  | nil => intro ys _ a ha; simp at ha
  | cons a₀ as ih =>
    intro ys h a ha
    simp only [mapExcept] at h
    cases hfa : f a₀ with
    | error e => rw [hfa] at h; exact absurd h (by simp)
    | ok b₀ =>
      rw [hfa] at h
      cases hrec : mapExcept f as with
      | error e => rw [hrec] at h; exact absurd h (by simp)
      | ok bs =>
        rw [hrec] at h
        simp only [Except.ok.injEq] at h
        subst h
        rcases List.mem_cons.mp ha with h₁ | h₁
        · exact ⟨b₀, by rw [h₁]; exact hfa, List.mem_cons_self _ _⟩
        · obtain ⟨b, hb, hbmem⟩ := ih bs hrec a h₁
          exact ⟨b, hb, List.mem_cons_of_mem _ hbmem⟩

theorem mapExcept_mem_bwd {α β : Type} (f : α → Except GErr β) :
    ∀ (l : List α) (ys : List β), mapExcept f l = .ok ys →
      ∀ b ∈ ys, ∃ a, a ∈ l ∧ f a = .ok b := by
  intro l
  induction l with
  | nil =>
    intro ys h b hb
    simp only [mapExcept, Except.ok.injEq] at h
    subst h
    simp at hb
  | cons a₀ as ih =>
    intro ys h b hb
    simp only [mapExcept] at h
    cases hfa : f a₀ with
    | error e => rw [hfa] at h; exact absurd h (by simp)
    | ok b₀ =>
      rw [hfa] at h
      cases hrec : mapExcept f as with
      | error e => rw [hrec] at h; exact absurd h (by simp)
      | ok bs =>
        rw [hrec] at h
        simp only [Except.ok.injEq] at h
        subst h
        rcases List.mem_cons.mp hb with h₁ | h₁
        · exact ⟨a₀, List.mem_cons_self _ _, by rw [h₁]; exact hfa⟩
        · obtain ⟨a, ha, hfa'⟩ := ih bs hrec b h₁
          exact ⟨a, List.mem_cons_of_mem _ ha, hfa'⟩

/-! Helper lemmas about the conversion loop. -/

theorem convertParams_get (units : List (String × AUnit)) :
    ∀ (params conv : PMap), convertParams units params = .ok conv →
      ∀ k v, alistGet params k = some v →
        ∃ w, convertOne units k v = .ok w ∧ alistGet conv k = some w := by
  intro params
  induction params with
  | nil => intro conv _ k v hkv; simp [alistGet] at hkv
  | cons kv rest ih =>
    intro conv h k v hkv
    obtain ⟨k₀, v₀⟩ := kv
    simp only [convertParams] at h
    cases hc : convertOne units k₀ v₀ with
    | error e => rw [hc] at h; exact absurd h (by simp)
    | ok w₀ =>
      rw [hc] at h
      cases hrec : convertParams units rest with
      | error e => rw [hrec] at h; exact absurd h (by simp)
      | ok ws =>
        rw [hrec] at h
        simp only [Except.ok.injEq] at h
        subst h
        simp only [alistGet] at hkv ⊢
        by_cases h₀ : k₀ = k
        · simp only [h₀, if_true] at hkv ⊢
          obtain rfl : v₀ = v := by injection hkv
          exact ⟨w₀, by rw [← h₀]; exact hc, rfl⟩
        · simp only [h₀, if_false] at hkv ⊢
          exact ih ws hrec k v hkv

theorem convertParams_get_none (units : List (String × AUnit)) :
    ∀ (params conv : PMap), convertParams units params = .ok conv →
      ∀ k, alistGet params k = none → alistGet conv k = none := by
  intro params
  induction params with
  | nil =>
    intro conv h k _
    simp only [convertParams, Except.ok.injEq] at h
    subst h
    rfl
  | cons kv rest ih =>
    intro conv h k hk
    obtain ⟨k₀, v₀⟩ := kv
    simp only [convertParams] at h
    cases hc : convertOne units k₀ v₀ with
    | error e => rw [hc] at h; exact absurd h (by simp)
    | ok w₀ =>
      rw [hc] at h
      cases hrec : convertParams units rest with
      | error e => rw [hrec] at h; exact absurd h (by simp)
      | ok ws =>
        rw [hrec] at h
        simp only [Except.ok.injEq] at h
        subst h
        simp only [alistGet] at hk ⊢
        by_cases h₀ : k₀ = k
        · simp [h₀] at hk
        · simp only [h₀, if_false] at hk ⊢
          exact ih ws hrec k hk

/-! Helper lemmas about the running maximum. -/

theorem foldl_max_le_start : ∀ (ns : List Int) (n b : Int), b ≤ n →
    b ≤ List.foldl max n ns := by
  intro ns
  induction ns with
  | nil => intro n b h; simpa using h
  | cons a as ih =>
    intro n b h
    simp only [List.foldl_cons]
    exact ih (max n a) b (le_trans h (le_max_left n a))

theorem le_foldl_max : ∀ (ns : List Int) (n z : Int), z ∈ n :: ns →
    z ≤ List.foldl max n ns := by
  intro ns
  induction ns with
  | nil => intro n z h; simp at h; simp [h]
  | cons a as ih =>
    intro n z h
    simp only [List.foldl_cons]
    rcases List.mem_cons.mp h with h₁ | h₁
    · exact foldl_max_le_start as (max n a) z (h₁ ▸ le_max_left n a)
    · rcases List.mem_cons.mp h₁ with h₂ | h₂
      · exact foldl_max_le_start as (max n a) z (h₂ ▸ le_max_right n a)
      · exact ih (max n a) z (List.mem_cons_of_mem _ h₂)

theorem foldl_max_mem : ∀ (ns : List Int) (n : Int),
    List.foldl max n ns ∈ n :: ns := by
  intro ns
  induction ns with
  | nil => intro n; simp
  | cons a as ih =>
    intro n
    simp only [List.foldl_cons]
    rcases List.mem_cons.mp (ih (max n a)) with h | h
    · rcases max_choice n a with h₁ | h₁ <;> rw [h, h₁]
      · exact List.mem_cons_self _ _
      · exact List.mem_cons_of_mem _ (List.mem_cons_self _ _)
    · exact List.mem_cons_of_mem _ (List.mem_cons_of_mem _ h)

/-! Success-path lemmas for the two variants. -/

theorem disk_temps_absent_of_ok (gen : GenFun) (nModes : ℕ) (options : PMap)
    (res : ℕ × ℕ × ℕ) (keep : Bool) (g : Option NativeField) (params : PMap)
    (seed : ℕ)
    (hd : exceptOk (GalMagDiskField.compute_field gen nModes options res keep
      g params seed).result = true) :
    alistGet (GalMagDiskField.compute_field gen nModes options res keep
      g params seed).params "disk_modes_normalization" = none
    ∧ alistGet (GalMagDiskField.compute_field gen nModes options res keep
      g params seed).params "disk_turbulent_induction" = none
    ∧ alistGet (GalMagDiskField.compute_field gen nModes options res keep
      g params seed).params "disk_dynamo_number" = none := by
  simp only [GalMagDiskField.compute_field] at hd ⊢
  cases h₁ : GalMagDiskField.disk_mode_norm nModes params with
  | error e => simp [h₁, exceptOk] at hd
  | ok norm =>
    simp only [h₁] at hd ⊢
    cases h₂ : alistGet (pmapSet params "disk_modes_normalization"
        (.arr norm)) "disk_height" with
    | none => simp [h₂, exceptOk] at hd
    | some hv =>
      simp only [h₂] at hd ⊢
      cases h₃ : alistGet (pmapSet params "disk_modes_normalization"
          (.arr norm)) "disk_shear_normalization" with
      | none => simp [h₃, exceptOk] at hd
      | some Sv =>
        simp only [h₃] at hd ⊢
        cases h₄ : alistGet (pmapSet params "disk_modes_normalization"
            (.arr norm)) "disk_alpha_effect" with
        | none => simp [h₄, exceptOk] at hd
        | some av =>
          simp only [h₄] at hd ⊢
          cases h₅ : alistGet (pmapSet params "disk_modes_normalization"
              (.arr norm)) "disk_turbulent_diffusivity" with
          | none => simp [h₅, exceptOk] at hd
          | some bv =>
            simp only [h₅] at hd ⊢
            cases h₆ : GalMagDiskField.disk_Ralpha hv av bv with
            | error e => simp [h₆, exceptOk] at hd
            | ok Ra =>
              simp only [h₆] at hd ⊢
              cases h₇ : GalMagDiskField.disk_Romega hv Sv bv with
              | error e => simp [h₇, exceptOk] at hd
              | ok Ro =>
                simp only [h₇] at hd ⊢
                cases h₈ : (base_compute_field gen
                    (GalMagDiskField.parameter_units nModes) options res keep g
                    (pmapSet (pmapSet (pmapSet params "disk_modes_normalization"
                      (.arr norm)) "disk_turbulent_induction" (.num Ra))
                      "disk_dynamo_number" (.num (Ra * Ro))) seed).result with
                | error e => simp [h₈, exceptOk] at hd
                | ok out =>
                  simp only [h₈]
                  refine ⟨?_, ?_, ?_⟩
                  · rw [alistGet_pmapErase_other _ _ _ (by decide),
                      alistGet_pmapErase_other _ _ _ (by decide),
                      alistGet_pmapErase_self]
                  · rw [alistGet_pmapErase_self]
                  · rw [alistGet_pmapErase_other _ _ _ (by decide),
                      alistGet_pmapErase_self]

theorem halo_temps_absent_of_ok (gen : GenFun) (options : PMap)
    (res : ℕ × ℕ × ℕ) (keep : Bool) (g : Option NativeField) (params : PMap)
    (seed : ℕ)
    (hh : exceptOk (GalMagHaloField.compute_field gen options res keep
      g params seed).result = true) :
    alistGet (GalMagHaloField.compute_field gen options res keep
      g params seed).params "halo_turbulent_induction" = none
    ∧ alistGet (GalMagHaloField.compute_field gen options res keep
      g params seed).params "halo_rotation_induction" = none := by
  simp only [GalMagHaloField.compute_field] at hh ⊢
  cases h₁ : alistGet params "halo_radius" with
  | none => simp [h₁, exceptOk] at hh
  | some rv =>
    simp only [h₁] at hh ⊢
    cases h₂ : alistGet params "halo_rotation_normalization" with
    | none => simp [h₂, exceptOk] at hh
    | some Vv =>
      simp only [h₂] at hh ⊢
      cases h₃ : alistGet params "halo_turbulent_diffusivity" with
      | none => simp [h₃, exceptOk] at hh
      | some bv =>
        simp only [h₃] at hh ⊢
        cases h₄ : alistGet params "halo_alpha_effect" with
        | none => simp [h₄, exceptOk] at hh
        | some av =>
          simp only [h₄] at hh ⊢
          cases h₅ : GalMagHaloField.halo_Ralpha rv av bv with
          | error e => simp [h₅, exceptOk] at hh
          | ok Ra =>
            simp only [h₅] at hh ⊢
            cases h₆ : GalMagHaloField.halo_Romega rv Vv bv with
            | error e => simp [h₆, exceptOk] at hh
            | ok Ro =>
              simp only [h₆] at hh ⊢
              cases h₇ : (base_compute_field gen GalMagHaloField.PARAMETER_UNITS
                  options res keep g (pmapSet (pmapSet params
                    "halo_turbulent_induction" (.num Ra))
                    "halo_rotation_induction" (.num Ro)) seed).result with
              | error e => simp [h₇, exceptOk] at hh
              | ok out =>
                simp only [h₇]
                refine ⟨?_, ?_⟩
                · rw [alistGet_pmapErase_self]
                · rw [alistGet_pmapErase_other _ _ _ (by decide),
                    alistGet_pmapErase_self]

/-- C1 (amended): after a `compute_field` call on the disk or halo variant
that returns successfully, the temporary derived entries
(`disk_modes_normalization`, `disk_turbulent_induction`,
`disk_dynamo_number` for the disk; `halo_turbulent_induction`,
`halo_rotation_induction` for the halo) are absent from the shared
parameter mapping. (When the call raises after the injection point the
deletions are skipped and the entries leak, see the counterexample.) -/
theorem galmag_temps_removed_on_success
    (gen gen' : GenFun) (nModes : ℕ) (options options' : PMap)
    (res res' : ℕ × ℕ × ℕ) (keep keep' : Bool) (g g' : Option NativeField)
    (params params' : PMap) (seed seed' : ℕ)
    (hd : exceptOk (GalMagDiskField.compute_field gen nModes options res keep
      g params seed).result = true)
    (hh : exceptOk (GalMagHaloField.compute_field gen' options' res' keep'
      g' params' seed').result = true) :
    (alistGet (GalMagDiskField.compute_field gen nModes options res keep
        g params seed).params "disk_modes_normalization" = none
      ∧ alistGet (GalMagDiskField.compute_field gen nModes options res keep
        g params seed).params "disk_turbulent_induction" = none
      ∧ alistGet (GalMagDiskField.compute_field gen nModes options res keep
        g params seed).params "disk_dynamo_number" = none)
    ∧ (alistGet (GalMagHaloField.compute_field gen' options' res' keep'
        g' params' seed').params "halo_turbulent_induction" = none
      ∧ alistGet (GalMagHaloField.compute_field gen' options' res' keep'
        g' params' seed').params "halo_rotation_induction" = none) :=
  ⟨disk_temps_absent_of_ok gen nModes options res keep g params seed hd,
   halo_temps_absent_of_ok gen' options' res' keep' g' params' seed' hh⟩

/-- Witness for C1's amended theorem at a concrete successful disk and halo
call. -/
theorem galmag_temps_removed_on_success_witness :
    alistGet (GalMagDiskField.compute_field gen0 1
      GalMagDiskField.disk_field_options (2, 3, 4) false none
      disk_demo_params 0).params "disk_modes_normalization" = none :=
  (galmag_temps_removed_on_success gen0 gen0 1
    GalMagDiskField.disk_field_options GalMagHaloField.halo_field_options
    (2, 3, 4) (2, 3, 4) false false none none disk_demo_params
    halo_demo_params 0 0 (by decide) (by decide)).1.1

/-- C1 counterexample: on the disk variant, a call that raises (here a
missing `disk_height`, KeyError) leaves the temporary entry
`disk_modes_normalization` behind in the shared parameter mapping, because
the deletions at the end of `compute_field` are not protected by
try/finally. This falsifies the claim's "when it raises" half. -/
theorem disk_temp_leaks_on_failure :
    (GalMagDiskField.compute_field gen0 1 GalMagDiskField.disk_field_options
      (2, 3, 4) false none [("mode_1", PVal.qty 1 microgauss)] 0).result
      = .error (.keyError "disk_height")
    ∧ (alistGet (GalMagDiskField.compute_field gen0 1
      GalMagDiskField.disk_field_options (2, 3, 4) false none
      [("mode_1", PVal.qty 1 microgauss)] 0).params
      "disk_modes_normalization").isSome = true :=
  ⟨rfl, rfl⟩

/-- C2 counterexample: `disk_radius` is a declared parameter of the disk
variant, not supplied by the mapping and not overridable by the fixed
options, yet the `compute_field` call raises no missing-parameter failure
and the wrapped generator is invoked (one recorded generator call, and the
call even succeeds). -/
theorem missing_declared_param_reaches_generator :
    "disk_radius" ∈ GalMagDiskField.PARAMETER_NAMES
    ∧ alistGet disk_demo_params "disk_radius" = none
    ∧ alistGet GalMagDiskField.disk_field_options "disk_radius" = none
    ∧ (GalMagDiskField.compute_field gen0 1
        GalMagDiskField.disk_field_options (2, 3, 4) false none
        disk_demo_params 0).genCalls.length = 1
    ∧ exceptOk (GalMagDiskField.compute_field gen0 1
        GalMagDiskField.disk_field_options (2, 3, 4) false none
        disk_demo_params 0).result = true :=
  ⟨by decide, rfl, rfl, by decide, by decide⟩

/-- Helper: a `mode_to_microgauss` success means the astropy shift
succeeded with a plain numeric result. -/
theorem mode_to_microgauss_ok (v : PVal) (x : ℚ)
    (h : mode_to_microgauss v = .ok x) :
    astShiftVal v microgauss = .ok (.num x) := by
  unfold mode_to_microgauss at h
  cases hs : astShiftVal v microgauss with
  | error e => rw [hs] at h; exact absurd h (by simp)
  | ok w =>
    rw [hs] at h
    cases w with
    | num y => simp_all
    | qty y u => simp_all
    | arr ys => simp_all
    | bool b => simp_all
    | str s => simp_all
    | func n => simp_all

/-- Helper: entries of `List.range`. -/
theorem range_getD (n i : ℕ) (h : i < n) : (List.range n).getD i 0 = i := by
  rw [List.getD_eq_getElem _ _ (by simpa using h)]
  simp

/-- C3: once the cache is populated (keep flag set and a first successful
call made), every later `compute_field` call on the base implementation
skips the wrapped generator entirely (no recorded generator call) and
returns the output built from the identical cached native field object,
for any parameter mapping, any option set, any generator and any seed. -/
theorem keep_field_cache_reuse
    (gen : GenFun) (units : List (String × AUnit)) (options : PMap)
    (res : ℕ × ℕ × ℕ) (params : PMap) (seed : ℕ)
    (h : exceptOk (base_compute_field gen units options res true none params
      seed).result = true) :
    ∃ B : NativeField,
      (base_compute_field gen units options res true none params seed).galmag
        = some B
      ∧ ∀ (gen' : GenFun) (units' : List (String × AUnit)) (options' : PMap)
          (res' : ℕ × ℕ × ℕ) (keep' : Bool) (params' : PMap) (seed' : ℕ),
          base_compute_field gen' units' options' res' keep' (some B) params'
            seed' = ⟨.ok (buildBArray res' B), params', some B, []⟩ := by
  simp only [base_compute_field] at h ⊢
  cases hc : convertParams units params with
  | error e => simp [hc, exceptOk] at h
  | ok conv =>
    simp only [hc] at h ⊢
    cases hg : gen (pmapUpdate conv options) with
    | error e => simp [hg, exceptOk] at h
    | ok B =>
      simp only [hg] at h ⊢
      exact ⟨B, by simp, fun _ _ _ _ _ _ _ => by trivial⟩

/-- Witness for C3 at a concrete first call. -/
theorem keep_field_cache_reuse_witness :
    ∃ B : NativeField,
      (base_compute_field gen0 [] [] (2, 3, 4) true none [] 0).galmag = some B
      ∧ ∀ (gen' : GenFun) (units' : List (String × AUnit)) (options' : PMap)
          (res' : ℕ × ℕ × ℕ) (keep' : Bool) (params' : PMap) (seed' : ℕ),
          base_compute_field gen' units' options' res' keep' (some B) params'
            seed' = ⟨.ok (buildBArray res' B), params', some B, []⟩ :=
  keep_field_cache_reuse gen0 [] [] (2, 3, 4) [] 0 (by decide)

/-- C4 (amended): a parameter whose name is outside the declared unit
table and the fixed-option names is not dropped: it is passed through
unchanged into the single mapping handed to the wrapped generator. -/
theorem undeclared_param_passthrough
    (gen : GenFun) (units : List (String × AUnit)) (options : PMap)
    (res : ℕ × ℕ × ℕ) (keep : Bool) (params conv : PMap) (seed : ℕ)
    (k : String) (v : PVal)
    (hconv : convertParams units params = .ok conv)
    (hku : alistGet units k = none)
    (hko : alistGet options k = none)
    (hkv : alistGet params k = some v) :
    (base_compute_field gen units options res keep none params seed).genCalls
        = [pmapUpdate conv options]
    ∧ alistGet (pmapUpdate conv options) k = some v := by
  constructor
  · simp only [base_compute_field, hconv]
    cases hg : gen (pmapUpdate conv options) <;> simp [hg]
  · obtain ⟨w, hw, hg⟩ := convertParams_get units params conv hconv k v hkv
    rw [convertOne, hku] at hw
    injection hw with hw
    rw [alistGet_pmapUpdate_none _ _ _ hko, hg, ← hw]

/-- Witness for C4's amended theorem. -/
theorem undeclared_param_passthrough_witness :
    alistGet (pmapUpdate [("not_a_galmag_param", PVal.num 7)]
      GalMagHaloField.halo_field_options) "not_a_galmag_param"
      = some (PVal.num 7) :=
  (undeclared_param_passthrough gen0 GalMagHaloField.PARAMETER_UNITS
    GalMagHaloField.halo_field_options (2, 3, 4) false
    [("not_a_galmag_param", PVal.num 7)] [("not_a_galmag_param", PVal.num 7)]
    0 "not_a_galmag_param" (PVal.num 7) rfl rfl rfl rfl).2

/-- C4 counterexample: an entry named outside the disk variant's declared
parameter list (`not_a_galmag_param`) is not ignored: the mapping passed to
the wrapped generator contains it unchanged, so it can affect the returned
field. -/
theorem undeclared_param_reaches_generator :
    ("not_a_galmag_param" ∉ GalMagDiskField.parameter_names 1)
    ∧ (GalMagDiskField.compute_field gen0 1
        GalMagDiskField.disk_field_options (2, 3, 4) false none stray_params
        0).genCalls.length = 1
    ∧ alistGet ((GalMagDiskField.compute_field gen0 1
        GalMagDiskField.disk_field_options (2, 3, 4) false none stray_params
        0).genCalls.headD []) "not_a_galmag_param" = some (PVal.num 7) :=
  ⟨by decide, by decide, rfl⟩

/-- C5: a successful disk mode-normalization array has exactly
`number_of_modes` entries; the i-th entry (0-based index i, parameter name
`mode_` followed by i+1) is the microgauss-converted value of that
parameter when the key is present in the mapping and zero when it is
absent. -/
theorem disk_mode_norm_spec (nModes : ℕ) (params : PMap) (norm : List ℚ)
    (h : GalMagDiskField.disk_mode_norm nModes params = .ok norm) :
    norm.length = nModes
    ∧ ∀ i : ℕ, i < nModes →
        (alistGet params (GalMagDiskField.mode_name (i + 1)) = none
          ∧ norm.getD i 0 = 0)
        ∨ (∃ v x, alistGet params (GalMagDiskField.mode_name (i + 1)) = some v
            ∧ astShiftVal v microgauss = .ok (.num x) ∧ norm.getD i 0 = x) := by
  have hlen := mapExcept_ok_length _ _ _ h
  rw [List.length_range] at hlen
  refine ⟨hlen, fun i hi => ?_⟩
  have hfd := mapExcept_ok_getD _ 0 0 _ _ h i (by simpa using hi)
  rw [range_getD nModes i hi] at hfd
  cases hk : alistGet params (GalMagDiskField.mode_name (i + 1)) with
  | none =>
    simp only [hk, Except.ok.injEq] at hfd
    exact Or.inl ⟨rfl, hfd.symm⟩
  | some v =>
    simp only [hk] at hfd
    exact Or.inr ⟨v, norm.getD i 0, rfl, mode_to_microgauss_ok v _ hfd, rfl⟩

/-- Witness for C5: two modes, only the first supplied. -/
theorem disk_mode_norm_spec_witness :
    ([(3 : ℚ), 0] : List ℚ).length = 2 :=
  (disk_mode_norm_spec 2 [("mode_1", PVal.num 3)] [3, 0] rfl).1

/-- C6: for dimensionally correct inputs, the four derived numbers are
dimensionless (the `to_value` conversions succeed) and equal the spec's
formulas evaluated on the base-unit magnitudes `value * scale`; since the
results depend only on those products, they are independent of the unit
system in which the caller expresses each input. -/
theorem derived_numbers_dimensionless
    (xh xa xb xS xr xV : ℚ) (uh ua ub uS ur uV : AUnit)
    (hh : uh.dim = ⟨1, 0, 0⟩) (hA : ua.dim = ⟨1, -1, 0⟩)
    (hB : ub.dim = ⟨2, -1, 0⟩) (hS : uS.dim = ⟨0, -1, 0⟩)
    (hr : ur.dim = ⟨1, 0, 0⟩) (hV : uV.dim = ⟨1, -1, 0⟩) :
    GalMagDiskField.disk_Ralpha (.qty xh uh) (.qty xa ua) (.qty xb ub)
      = .ok ((xh * uh.scale) * (xa * ua.scale) / (xb * ub.scale))
    ∧ GalMagDiskField.disk_Romega (.qty xh uh) (.qty xS uS) (.qty xb ub)
      = .ok ((xh * uh.scale) ^ 2 * (xS * uS.scale) / (xb * ub.scale))
    ∧ GalMagHaloField.halo_Ralpha (.qty xr ur) (.qty xa ua) (.qty xb ub)
      = .ok ((xr * ur.scale) * (xa * ua.scale) / (xb * ub.scale))
    ∧ GalMagHaloField.halo_Romega (.qty xr ur) (.qty xV uV) (.qty xb ub)
      = .ok (-((xr * ur.scale) * (xV * uV.scale) / (xb * ub.scale))) := by
  refine ⟨?_, ?_, ?_, ?_⟩ <;>
  · simp only [GalMagDiskField.disk_Ralpha, GalMagDiskField.disk_Romega,
      GalMagHaloField.halo_Ralpha, GalMagHaloField.halo_Romega,
      PVal.mulP, PVal.divP, PVal.negP, PVal.to_value_dimensionless,
      AUnit.mulU, AUnit.divU, Dim.mulD, Dim.divD, hh, hA, hB, hS, hr, hV]
    norm_num
    ring

/-- Witness for C6 with the adapter's actual units (kpc, km/s, cm^2/s). -/
theorem derived_numbers_dimensionless_witness :
    GalMagDiskField.disk_Ralpha (.qty 1 kpc) (.qty 1 km_per_s)
      (.qty 1 cm2_per_s)
      = .ok ((1 * kpc.scale) * (1 * km_per_s.scale) / (1 * cm2_per_s.scale)) :=
  (derived_numbers_dimensionless 1 1 1 1 1 1 kpc km_per_s cm2_per_s one_per_s
    kpc km_per_s rfl rfl rfl rfl rfl rfl).1

/-- C7: when the base `compute_field` runs with an empty cache and the
conversion loop succeeds, exactly one mapping is handed to the wrapped
generator: the converted caller mapping overlaid with the fixed options,
where on any name collision the fixed option wins; converted entries are
obtained from the caller entries by `convertOne` (unit-table conversion to
the bare value, pass-through otherwise) and no entries are added or
dropped. -/
theorem generator_mapping_spec
    (gen : GenFun) (units : List (String × AUnit)) (options : PMap)
    (res : ℕ × ℕ × ℕ) (keep : Bool) (params conv : PMap) (seed : ℕ)
    (hconv : convertParams units params = .ok conv)
    (hnd : (options.map Prod.fst).Nodup) :
    (base_compute_field gen units options res keep none params seed).genCalls
        = [pmapUpdate conv options]
    ∧ (∀ k, alistGet (pmapUpdate conv options) k
        = match alistGet options k with
          | some v => some v
          | none => alistGet conv k)
    ∧ (∀ k v, alistGet params k = some v →
        ∃ w, convertOne units k v = .ok w ∧ alistGet conv k = some w)
    ∧ (∀ k, alistGet params k = none → alistGet conv k = none) := by
  refine ⟨?_, fun k => alistGet_pmapUpdate conv options k hnd,
    convertParams_get units params conv hconv,
    convertParams_get_none units params conv hconv⟩
  simp only [base_compute_field, hconv]
  cases hg : gen (pmapUpdate conv options) <;> simp [hg]

/-- Witness for C7 at a concrete call. -/
theorem generator_mapping_spec_witness :
    (base_compute_field gen0 GalMagDiskField.PARAMETER_UNITS
      GalMagDiskField.disk_field_options (2, 3, 4) false none
      [("disk_height", PVal.num 3)] 0).genCalls
      = [pmapUpdate [("disk_height", PVal.num 3)]
          GalMagDiskField.disk_field_options] :=
  (generator_mapping_spec gen0 GalMagDiskField.PARAMETER_UNITS
    GalMagDiskField.disk_field_options (2, 3, 4) false
    [("disk_height", PVal.num 3)] [("disk_height", PVal.num 3)] 0
    rfl (by decide)).1

/-- Helper: the fields of the output array built from a native field. -/
theorem buildBArray_fields (res : ℕ × ℕ × ℕ) (B : NativeField) :
    (buildBArray res B).shape = (res.1, res.2.1, res.2.2, 3)
    ∧ (buildBArray res B).unit = microgauss
    ∧ (buildBArray res B).data 0 = B.x
    ∧ (buildBArray res B).data 1 = B.y
    ∧ (buildBArray res B).data 2 = B.z := by
  refine ⟨rfl, rfl, ?_, ?_, ?_⟩ <;>
    simp [buildBArray, Function.update]

/-- C8: every successful base `compute_field` call returns the array built
from some native field: its shape is the grid resolution with a trailing
axis of size 3, its unit tag is microgauss (whatever units the caller
supplied, since the caller's mapping is universally quantified here), and
its trailing slots 0, 1, 2 hold the native x, y, z components in that
order. -/
theorem output_shape_and_units
    (gen : GenFun) (units : List (String × AUnit)) (options : PMap)
    (res : ℕ × ℕ × ℕ) (keep : Bool) (g : Option NativeField) (params : PMap)
    (seed : ℕ) (out : BArray)
    (h : (base_compute_field gen units options res keep g params seed).result
      = .ok out) :
    ∃ B : NativeField, out = buildBArray res B
      ∧ out.shape = (res.1, res.2.1, res.2.2, 3)
      ∧ out.unit = microgauss
      ∧ out.data 0 = B.x ∧ out.data 1 = B.y ∧ out.data 2 = B.z := by
  have main : ∃ B : NativeField, out = buildBArray res B := by
    simp only [base_compute_field] at h
    cases g with
    | some B =>
      simp only [Except.ok.injEq] at h
      exact ⟨B, h.symm⟩
    | none =>
      cases hc : convertParams units params with
      | error e => simp [hc] at h
      | ok conv =>
        simp only [hc] at h
        cases hg : gen (pmapUpdate conv options) with
        | error e => simp [hg] at h
        | ok B =>
          simp only [hg, Except.ok.injEq] at h
          exact ⟨B, h.symm⟩
  obtain ⟨B, rfl⟩ := main
  obtain ⟨h₁, h₂, h₃, h₄, h₅⟩ := buildBArray_fields res B
  exact ⟨B, rfl, h₁, h₂, h₃, h₄, h₅⟩

/-- Witness for C8 at a concrete cached call. -/
theorem output_shape_and_units_witness :
    ∃ B : NativeField,
      buildBArray (2, 3, 4) ⟨5, 6, 7⟩ = buildBArray (2, 3, 4) B
      ∧ (buildBArray (2, 3, 4) (⟨5, 6, 7⟩ : NativeField)).shape = (2, 3, 4, 3)
      ∧ (buildBArray (2, 3, 4) (⟨5, 6, 7⟩ : NativeField)).unit = microgauss
      ∧ (buildBArray (2, 3, 4) (⟨5, 6, 7⟩ : NativeField)).data 0 = B.x
      ∧ (buildBArray (2, 3, 4) (⟨5, 6, 7⟩ : NativeField)).data 1 = B.y
      ∧ (buildBArray (2, 3, 4) (⟨5, 6, 7⟩ : NativeField)).data 2 = B.z :=
  output_shape_and_units gen0 [] [] (2, 3, 4) false (some ⟨5, 6, 7⟩) [] 0
    (buildBArray (2, 3, 4) ⟨5, 6, 7⟩) rfl

/-- C9: when `number_of_modes` is omitted, the disk constructor infers it
from the parameter keys: when no key contains the substring `mode_` the
inference raises a ValueError at construction time (`max` of an empty
sequence); when it returns a count, that count is the largest integer
parsed from position 5 onward among the keys containing the substring
(every such key parses, its value is bounded by the result, and the result
is attained by one of them). -/
theorem infer_number_of_modes_spec (keys₁ keys₂ : List String) (m : Int)
    (h₁ : ∀ k ∈ keys₁, GalMagDiskField.has_mode_sub k = false)
    (h₂ : GalMagDiskField.infer_number_of_modes keys₂ = .ok m) :
    GalMagDiskField.infer_number_of_modes keys₁ = .error .valueError
    ∧ (∀ k ∈ keys₂, GalMagDiskField.has_mode_sub k = true →
        ∃ z, GalMagDiskField.parse_from_5 k = .ok z ∧ z ≤ m)
    ∧ (∃ k ∈ keys₂, GalMagDiskField.has_mode_sub k = true
        ∧ GalMagDiskField.parse_from_5 k = .ok m) := by
  refine ⟨?_, ?_, ?_⟩
  · have hf : keys₁.filter GalMagDiskField.has_mode_sub = [] :=
      List.filter_eq_nil_iff.mpr (fun a ha => by simp [h₁ a ha])
    unfold GalMagDiskField.infer_number_of_modes
    rw [hf]
    rfl
  · intro k hk hsub
    unfold GalMagDiskField.infer_number_of_modes at h₂
    cases hme : mapExcept GalMagDiskField.parse_from_5
        (keys₂.filter GalMagDiskField.has_mode_sub) with
    | error e => rw [hme] at h₂; exact absurd h₂ (by simp)
    | ok ns =>
      rw [hme] at h₂
      cases ns with
      | nil => exact absurd h₂ (by simp)
      | cons n ns' =>
        simp only [Except.ok.injEq] at h₂
        subst h₂
        have hkf : k ∈ keys₂.filter GalMagDiskField.has_mode_sub :=
          List.mem_filter.mpr ⟨hk, hsub⟩
        obtain ⟨z, hz, hzmem⟩ := mapExcept_mem_fwd _ _ _ hme k hkf
        exact ⟨z, hz, le_foldl_max ns' n z hzmem⟩
  · unfold GalMagDiskField.infer_number_of_modes at h₂
    cases hme : mapExcept GalMagDiskField.parse_from_5
        (keys₂.filter GalMagDiskField.has_mode_sub) with
    | error e => rw [hme] at h₂; exact absurd h₂ (by simp)
    | ok ns =>
      rw [hme] at h₂
      cases ns with
      | nil => exact absurd h₂ (by simp)
      | cons n ns' =>
        simp only [Except.ok.injEq] at h₂
        subst h₂
        obtain ⟨k, hkf, hfk⟩ := mapExcept_mem_bwd _ _ _ hme _
          (foldl_max_mem ns' n)
        have hk := List.mem_filter.mp hkf
        exact ⟨k, hk.1, hk.2, hfk⟩

/-- Witness for C9: no `mode_` key at all on one side, keys `mode_1` and
`mode_3` on the other. -/
theorem infer_number_of_modes_spec_witness :
    GalMagDiskField.infer_number_of_modes ["disk_height"]
      = .error .valueError :=
  (infer_number_of_modes_spec ["disk_height"] ["mode_1", "mode_3"] 3
    (by intro k hk; simp at hk; subst hk; rfl) rfl).1

/-- Helper: on the disk variant, whichever of the four physical parameters
read by the derived-number computation is absent (the first one in the
source's read order), the call raises a KeyError on it and the generator
is never invoked, for any cache state. -/
theorem disk_missing_physical_param_raises (gen : GenFun) (nModes : ℕ)
    (options : PMap) (res : ℕ × ℕ × ℕ) (keep : Bool) (g : Option NativeField)
    (params : PMap) (seed : ℕ) (norm : List ℚ)
    (hmn : GalMagDiskField.disk_mode_norm nModes params = .ok norm)
    (hmiss : alistGet params "disk_height" = none
      ∨ alistGet params "disk_shear_normalization" = none
      ∨ alistGet params "disk_alpha_effect" = none
      ∨ alistGet params "disk_turbulent_diffusivity" = none) :
    ∃ k, k ∈ ["disk_height", "disk_shear_normalization", "disk_alpha_effect",
        "disk_turbulent_diffusivity"]
      ∧ alistGet params k = none
      ∧ (GalMagDiskField.compute_field gen nModes options res keep g params
          seed).result = .error (.keyError k)
      ∧ (GalMagDiskField.compute_field gen nModes options res keep g params
          seed).genCalls = [] := by
  cases h₁ : alistGet params "disk_height" with
  | none =>
    refine ⟨"disk_height", by decide, h₁, ?_, ?_⟩ <;>
      simp [GalMagDiskField.compute_field, hmn,
        alistGet_pmapSet_other params "disk_modes_normalization"
          "disk_height" (PVal.arr norm) (by decide), h₁]
  | some hv =>
    cases h₂ : alistGet params "disk_shear_normalization" with
    | none =>
      refine ⟨"disk_shear_normalization", by decide, h₂, ?_, ?_⟩ <;>
        simp [GalMagDiskField.compute_field, hmn,
          alistGet_pmapSet_other params "disk_modes_normalization"
            "disk_height" (PVal.arr norm) (by decide),
          alistGet_pmapSet_other params "disk_modes_normalization"
            "disk_shear_normalization" (PVal.arr norm) (by decide), h₁, h₂]
    | some Sv =>
      cases h₃ : alistGet params "disk_alpha_effect" with
      | none =>
        refine ⟨"disk_alpha_effect", by decide, h₃, ?_, ?_⟩ <;>
          simp [GalMagDiskField.compute_field, hmn,
            alistGet_pmapSet_other params "disk_modes_normalization"
              "disk_height" (PVal.arr norm) (by decide),
            alistGet_pmapSet_other params "disk_modes_normalization"
              "disk_shear_normalization" (PVal.arr norm) (by decide),
            alistGet_pmapSet_other params "disk_modes_normalization"
              "disk_alpha_effect" (PVal.arr norm) (by decide), h₁, h₂, h₃]
      | some av =>
        cases h₄ : alistGet params "disk_turbulent_diffusivity" with
        | none =>
          refine ⟨"disk_turbulent_diffusivity", by decide, h₄, ?_, ?_⟩ <;>
            simp [GalMagDiskField.compute_field, hmn,
              alistGet_pmapSet_other params "disk_modes_normalization"
                "disk_height" (PVal.arr norm) (by decide),
              alistGet_pmapSet_other params "disk_modes_normalization"
                "disk_shear_normalization" (PVal.arr norm) (by decide),
              alistGet_pmapSet_other params "disk_modes_normalization"
                "disk_alpha_effect" (PVal.arr norm) (by decide),
              alistGet_pmapSet_other params "disk_modes_normalization"
                "disk_turbulent_diffusivity" (PVal.arr norm) (by decide),
              h₁, h₂, h₃, h₄]
        | some bv =>
          exfalso
          rcases hmiss with h | h | h | h <;> simp_all

/-- Helper: on the halo variant, whichever of the four physical parameters
read by the derived-number computation is absent (the first one in the
source's read order), the call raises a KeyError on it and the generator
is never invoked, for any cache state. -/
theorem halo_missing_physical_param_raises (gen : GenFun) (options : PMap)
    (res : ℕ × ℕ × ℕ) (keep : Bool) (g : Option NativeField) (params : PMap)
    (seed : ℕ)
    (hmiss : alistGet params "halo_radius" = none
      ∨ alistGet params "halo_rotation_normalization" = none
      ∨ alistGet params "halo_turbulent_diffusivity" = none
      ∨ alistGet params "halo_alpha_effect" = none) :
    ∃ k, k ∈ ["halo_radius", "halo_rotation_normalization",
        "halo_turbulent_diffusivity", "halo_alpha_effect"]
      ∧ alistGet params k = none
      ∧ (GalMagHaloField.compute_field gen options res keep g params
          seed).result = .error (.keyError k)
      ∧ (GalMagHaloField.compute_field gen options res keep g params
          seed).genCalls = [] := by
  cases h₁ : alistGet params "halo_radius" with
  | none =>
    refine ⟨"halo_radius", by decide, h₁, ?_, ?_⟩ <;>
      simp [GalMagHaloField.compute_field, h₁]
  | some rv =>
    cases h₂ : alistGet params "halo_rotation_normalization" with
    | none =>
      refine ⟨"halo_rotation_normalization", by decide, h₂, ?_, ?_⟩ <;>
        simp [GalMagHaloField.compute_field, h₁, h₂]
    | some Vv =>
      cases h₃ : alistGet params "halo_turbulent_diffusivity" with
      | none =>
        refine ⟨"halo_turbulent_diffusivity", by decide, h₃, ?_, ?_⟩ <;>
          simp [GalMagHaloField.compute_field, h₁, h₂, h₃]
      | some bv =>
        cases h₄ : alistGet params "halo_alpha_effect" with
        | none =>
          refine ⟨"halo_alpha_effect", by decide, h₄, ?_, ?_⟩ <;>
            simp [GalMagHaloField.compute_field, h₁, h₂, h₃, h₄]
        | some av =>
          exfalso
          rcases hmiss with h | h | h | h <;> simp_all

/-- Helper: a successful disk `compute_field` call with an empty cache
handed exactly one mapping to the wrapped generator, whatever other
declared parameter names are absent from the mapping. -/
theorem disk_ok_genCalls (gen : GenFun) (nModes : ℕ) (options : PMap)
    (res : ℕ × ℕ × ℕ) (keep : Bool) (params : PMap) (seed : ℕ)
    (hd : exceptOk (GalMagDiskField.compute_field gen nModes options res keep
      none params seed).result = true) :
    (GalMagDiskField.compute_field gen nModes options res keep none params
      seed).genCalls.length = 1 := by
  simp only [GalMagDiskField.compute_field] at hd ⊢
  cases h₁ : GalMagDiskField.disk_mode_norm nModes params with
  | error e => simp [h₁, exceptOk] at hd
  | ok norm =>
    simp only [h₁] at hd ⊢
    cases h₂ : alistGet (pmapSet params "disk_modes_normalization"
        (.arr norm)) "disk_height" with
    | none => simp [h₂, exceptOk] at hd
    | some hv =>
      simp only [h₂] at hd ⊢
      cases h₃ : alistGet (pmapSet params "disk_modes_normalization"
          (.arr norm)) "disk_shear_normalization" with
      | none => simp [h₃, exceptOk] at hd
      | some Sv =>
        simp only [h₃] at hd ⊢
        cases h₄ : alistGet (pmapSet params "disk_modes_normalization"
            (.arr norm)) "disk_alpha_effect" with
        | none => simp [h₄, exceptOk] at hd
        | some av =>
          simp only [h₄] at hd ⊢
          cases h₅ : alistGet (pmapSet params "disk_modes_normalization"
              (.arr norm)) "disk_turbulent_diffusivity" with
          | none => simp [h₅, exceptOk] at hd
          | some bv =>
            simp only [h₅] at hd ⊢
            cases h₆ : GalMagDiskField.disk_Ralpha hv av bv with
            | error e => simp [h₆, exceptOk] at hd
            | ok Ra =>
              simp only [h₆] at hd ⊢
              cases h₇ : GalMagDiskField.disk_Romega hv Sv bv with
              | error e => simp [h₇, exceptOk] at hd
              | ok Ro =>
                simp only [h₇] at hd ⊢
                cases hc : convertParams (GalMagDiskField.parameter_units
                    nModes) (pmapSet (pmapSet (pmapSet params
                      "disk_modes_normalization" (.arr norm))
                      "disk_turbulent_induction" (.num Ra))
                      "disk_dynamo_number" (.num (Ra * Ro))) with
                | error e => simp [base_compute_field, hc, exceptOk] at hd
                | ok conv =>
                  simp only [base_compute_field, hc] at hd ⊢
                  cases hg : gen (pmapUpdate conv options) with
                  | error e => simp [hg, exceptOk] at hd
                  | ok B => simp [hg]

/-- Helper: a successful halo `compute_field` call with an empty cache
handed exactly one mapping to the wrapped generator, whatever other
declared parameter names are absent from the mapping. -/
theorem halo_ok_genCalls (gen : GenFun) (options : PMap)
    (res : ℕ × ℕ × ℕ) (keep : Bool) (params : PMap) (seed : ℕ)
    (hh : exceptOk (GalMagHaloField.compute_field gen options res keep
      none params seed).result = true) :
    (GalMagHaloField.compute_field gen options res keep none params
      seed).genCalls.length = 1 := by
  simp only [GalMagHaloField.compute_field] at hh ⊢
  cases h₁ : alistGet params "halo_radius" with
  | none => simp [h₁, exceptOk] at hh
  | some rv =>
    simp only [h₁] at hh ⊢
    cases h₂ : alistGet params "halo_rotation_normalization" with
    | none => simp [h₂, exceptOk] at hh
    | some Vv =>
      simp only [h₂] at hh ⊢
      cases h₃ : alistGet params "halo_turbulent_diffusivity" with
      | none => simp [h₃, exceptOk] at hh
      | some bv =>
        simp only [h₃] at hh ⊢
        cases h₄ : alistGet params "halo_alpha_effect" with
        | none => simp [h₄, exceptOk] at hh
        | some av =>
          simp only [h₄] at hh ⊢
          cases h₅ : GalMagHaloField.halo_Ralpha rv av bv with
          | error e => simp [h₅, exceptOk] at hh
          | ok Ra =>
            simp only [h₅] at hh ⊢
            cases h₆ : GalMagHaloField.halo_Romega rv Vv bv with
            | error e => simp [h₆, exceptOk] at hh
            | ok Ro =>
              simp only [h₆] at hh ⊢
              cases hc : convertParams GalMagHaloField.PARAMETER_UNITS
                  (pmapSet (pmapSet params "halo_turbulent_induction"
                    (.num Ra)) "halo_rotation_induction" (.num Ro)) with
              | error e => simp [base_compute_field, hc, exceptOk] at hh
              | ok conv =>
                simp only [base_compute_field, hc] at hh ⊢
                cases hg : gen (pmapUpdate conv options) with
                | error e => simp [hg, exceptOk] at hh
                | ok B => simp [hg]

/-- Helper: a successful disk `compute_field` call on a populated cache
reads the four physical parameters, injects the three temporary derived
entries into the shared mapping (the `pmapSet` chain below), reuses the
cached native field without invoking the generator, and removes the
temporary entries again (the `pmapErase` chain). -/
theorem disk_cache_hit_success_shape (gen : GenFun) (nModes : ℕ)
    (options : PMap) (res : ℕ × ℕ × ℕ) (keep : Bool) (B : NativeField)
    (params : PMap) (seed : ℕ)
    (hd : exceptOk (GalMagDiskField.compute_field gen nModes options res keep
      (some B) params seed).result = true) :
    ∃ norm Ra Ro,
      GalMagDiskField.disk_mode_norm nModes params = .ok norm
      ∧ GalMagDiskField.compute_field gen nModes options res keep (some B)
          params seed
        = ⟨.ok (buildBArray res B),
           pmapErase (pmapErase (pmapErase
             (pmapSet (pmapSet (pmapSet params "disk_modes_normalization"
               (PVal.arr norm)) "disk_turbulent_induction" (PVal.num Ra))
               "disk_dynamo_number" (PVal.num (Ra * Ro)))
             "disk_modes_normalization") "disk_dynamo_number")
             "disk_turbulent_induction",
           some B, []⟩ := by
  simp only [GalMagDiskField.compute_field] at hd ⊢
  cases h₁ : GalMagDiskField.disk_mode_norm nModes params with
  | error e => simp [h₁, exceptOk] at hd
  | ok norm =>
    simp only [h₁] at hd ⊢
    cases h₂ : alistGet (pmapSet params "disk_modes_normalization"
        (.arr norm)) "disk_height" with
    | none => simp [h₂, exceptOk] at hd
    | some hv =>
      simp only [h₂] at hd ⊢
      cases h₃ : alistGet (pmapSet params "disk_modes_normalization"
          (.arr norm)) "disk_shear_normalization" with
      | none => simp [h₃, exceptOk] at hd
      | some Sv =>
        simp only [h₃] at hd ⊢
        cases h₄ : alistGet (pmapSet params "disk_modes_normalization"
            (.arr norm)) "disk_alpha_effect" with
        | none => simp [h₄, exceptOk] at hd
        | some av =>
          simp only [h₄] at hd ⊢
          cases h₅ : alistGet (pmapSet params "disk_modes_normalization"
              (.arr norm)) "disk_turbulent_diffusivity" with
          | none => simp [h₅, exceptOk] at hd
          | some bv =>
            simp only [h₅] at hd ⊢
            cases h₆ : GalMagDiskField.disk_Ralpha hv av bv with
            | error e => simp [h₆, exceptOk] at hd
            | ok Ra =>
              simp only [h₆] at hd ⊢
              cases h₇ : GalMagDiskField.disk_Romega hv Sv bv with
              | error e => simp [h₇, exceptOk] at hd
              | ok Ro =>
                simp only [h₇] at hd ⊢
                exact ⟨norm, Ra, Ro, by simp, by simp [base_compute_field]⟩

/-- Helper: a successful halo `compute_field` call on a populated cache
reads the four physical parameters, injects the two temporary derived
entries, reuses the cached native field without invoking the generator,
and removes the temporary entries again. -/
theorem halo_cache_hit_success_shape (gen : GenFun) (options : PMap)
    (res : ℕ × ℕ × ℕ) (keep : Bool) (B : NativeField) (params : PMap)
    (seed : ℕ)
    (hh : exceptOk (GalMagHaloField.compute_field gen options res keep
      (some B) params seed).result = true) :
    ∃ Ra Ro,
      GalMagHaloField.compute_field gen options res keep (some B) params seed
        = ⟨.ok (buildBArray res B),
           pmapErase (pmapErase
             (pmapSet (pmapSet params "halo_turbulent_induction"
               (PVal.num Ra)) "halo_rotation_induction" (PVal.num Ro))
             "halo_rotation_induction") "halo_turbulent_induction",
           some B, []⟩ := by
  simp only [GalMagHaloField.compute_field] at hh ⊢
  cases h₁ : alistGet params "halo_radius" with
  | none => simp [h₁, exceptOk] at hh
  | some rv =>
    simp only [h₁] at hh ⊢
    cases h₂ : alistGet params "halo_rotation_normalization" with
    | none => simp [h₂, exceptOk] at hh
    | some Vv =>
      simp only [h₂] at hh ⊢
      cases h₃ : alistGet params "halo_turbulent_diffusivity" with
      | none => simp [h₃, exceptOk] at hh
      | some bv =>
        simp only [h₃] at hh ⊢
        cases h₄ : alistGet params "halo_alpha_effect" with
        | none => simp [h₄, exceptOk] at hh
        | some av =>
          simp only [h₄] at hh ⊢
          cases h₅ : GalMagHaloField.halo_Ralpha rv av bv with
          | error e => simp [h₅, exceptOk] at hh
          | ok Ra =>
            simp only [h₅] at hh ⊢
            cases h₆ : GalMagHaloField.halo_Romega rv Vv bv with
            | error e => simp [h₆, exceptOk] at hh
            | ok Ro =>
              simp only [h₆] at hh ⊢
              exact ⟨Ra, Ro, by simp [base_compute_field]⟩

/-- C2 (amended): the adapter checks exactly the eight physical parameters
read by the derived-number computation before the wrapped generator is
reached. If any of `disk_height`, `disk_shear_normalization`,
`disk_alpha_effect`, `disk_turbulent_diffusivity` (disk) or `halo_radius`,
`halo_rotation_normalization`, `halo_turbulent_diffusivity`,
`halo_alpha_effect` (halo) is absent from the mapping, the call raises a
missing-key failure on an absent one of them and the generator is never
invoked, for any cache state. Conversely, absence of any other declared
parameter does not make the adapter raise: every successful call with an
empty cache hands exactly one mapping to the generator, with no
requirement that the remaining declared names be present (see also the
counterexample, where the declared `disk_radius` is missing and the call
succeeds). -/
theorem missing_physical_param_fails_before_generator
    (gen gen' gen₂ gen₂' : GenFun) (nModes nModes₂ : ℕ)
    (options options' options₂ options₂' : PMap)
    (res res' res₂ res₂' : ℕ × ℕ × ℕ) (keep keep' keep₂ keep₂' : Bool)
    (g g' : Option NativeField)
    (params params' params₂ params₂' : PMap) (seed seed' seed₂ seed₂' : ℕ)
    (norm : List ℚ)
    (hmn : GalMagDiskField.disk_mode_norm nModes params = .ok norm)
    (hmiss : alistGet params "disk_height" = none
      ∨ alistGet params "disk_shear_normalization" = none
      ∨ alistGet params "disk_alpha_effect" = none
      ∨ alistGet params "disk_turbulent_diffusivity" = none)
    (hmiss' : alistGet params' "halo_radius" = none
      ∨ alistGet params' "halo_rotation_normalization" = none
      ∨ alistGet params' "halo_turbulent_diffusivity" = none
      ∨ alistGet params' "halo_alpha_effect" = none)
    (hok : exceptOk (GalMagDiskField.compute_field gen₂ nModes₂ options₂ res₂
      keep₂ none params₂ seed₂).result = true)
    (hok' : exceptOk (GalMagHaloField.compute_field gen₂' options₂' res₂'
      keep₂' none params₂' seed₂').result = true) :
    (∃ k, k ∈ ["disk_height", "disk_shear_normalization", "disk_alpha_effect",
        "disk_turbulent_diffusivity"]
      ∧ alistGet params k = none
      ∧ (GalMagDiskField.compute_field gen nModes options res keep g params
          seed).result = .error (.keyError k)
      ∧ (GalMagDiskField.compute_field gen nModes options res keep g params
          seed).genCalls = [])
    ∧ (∃ k, k ∈ ["halo_radius", "halo_rotation_normalization",
        "halo_turbulent_diffusivity", "halo_alpha_effect"]
      ∧ alistGet params' k = none
      ∧ (GalMagHaloField.compute_field gen' options' res' keep' g' params'
          seed').result = .error (.keyError k)
      ∧ (GalMagHaloField.compute_field gen' options' res' keep' g' params'
          seed').genCalls = [])
    ∧ (GalMagDiskField.compute_field gen₂ nModes₂ options₂ res₂ keep₂ none
        params₂ seed₂).genCalls.length = 1
    ∧ (GalMagHaloField.compute_field gen₂' options₂' res₂' keep₂' none
        params₂' seed₂').genCalls.length = 1 :=
  ⟨disk_missing_physical_param_raises gen nModes options res keep g params
      seed norm hmn hmiss,
   halo_missing_physical_param_raises gen' options' res' keep' g' params'
      seed' hmiss',
   disk_ok_genCalls gen₂ nModes₂ options₂ res₂ keep₂ params₂ seed₂ hok,
   halo_ok_genCalls gen₂' options₂' res₂' keep₂' params₂' seed₂' hok'⟩

/-- Witness for C2's amended theorem: empty mappings for the missing-key
clauses, the demo mappings for the success clauses. -/
theorem missing_physical_param_fails_before_generator_witness :
    ∃ k, k ∈ ["disk_height", "disk_shear_normalization", "disk_alpha_effect",
        "disk_turbulent_diffusivity"]
      ∧ alistGet ([] : PMap) k = none
      ∧ (GalMagDiskField.compute_field gen0 1
          GalMagDiskField.disk_field_options (2, 3, 4) false none [] 0).result
          = .error (.keyError k)
      ∧ (GalMagDiskField.compute_field gen0 1
          GalMagDiskField.disk_field_options (2, 3, 4) false none []
          0).genCalls = [] :=
  (missing_physical_param_fails_before_generator gen0 gen0 gen0 gen0 1 1
    GalMagDiskField.disk_field_options GalMagHaloField.halo_field_options
    GalMagDiskField.disk_field_options GalMagHaloField.halo_field_options
    (2, 3, 4) (2, 3, 4) (2, 3, 4) (2, 3, 4) false false false false
    none none [] [] disk_demo_params halo_demo_params 0 0 0 0 [0]
    rfl (Or.inl rfl) (Or.inl rfl) (by decide) (by decide)).1

/-- C10: even with the keep flag's cache populated (`self.galmag` holding
a native field), a `compute_field` call on the disk or halo variant still
reads the physical parameters needed for the derived numbers: if any of
the four disk (resp. four halo) parameters is absent from the mapping the
call raises a missing-key failure on an absent one, despite the cached
field being available; and when the call succeeds it has injected the
temporary derived entries into the shared mapping and removed them again
(the `pmapSet`/`pmapErase` chains below), returning the cached field with
no generator invocation. -/
theorem cache_hit_still_reads_params
    (gen gen' gen₂ gen₂' : GenFun) (nModes nModes₂ : ℕ)
    (options options' options₂ options₂' : PMap)
    (res res' res₂ res₂' : ℕ × ℕ × ℕ) (keep keep' keep₂ keep₂' : Bool)
    (B B' B₂ B₂' : NativeField)
    (params params' params₂ params₂' : PMap) (seed seed' seed₂ seed₂' : ℕ)
    (norm : List ℚ)
    (hmn : GalMagDiskField.disk_mode_norm nModes params = .ok norm)
    (hmiss : alistGet params "disk_height" = none
      ∨ alistGet params "disk_shear_normalization" = none
      ∨ alistGet params "disk_alpha_effect" = none
      ∨ alistGet params "disk_turbulent_diffusivity" = none)
    (hmiss' : alistGet params' "halo_radius" = none
      ∨ alistGet params' "halo_rotation_normalization" = none
      ∨ alistGet params' "halo_turbulent_diffusivity" = none
      ∨ alistGet params' "halo_alpha_effect" = none)
    (hok : exceptOk (GalMagDiskField.compute_field gen₂ nModes₂ options₂ res₂
      keep₂ (some B₂) params₂ seed₂).result = true)
    (hok' : exceptOk (GalMagHaloField.compute_field gen₂' options₂' res₂'
      keep₂' (some B₂') params₂' seed₂').result = true) :
    (∃ k, k ∈ ["disk_height", "disk_shear_normalization", "disk_alpha_effect",
        "disk_turbulent_diffusivity"]
      ∧ alistGet params k = none
      ∧ (GalMagDiskField.compute_field gen nModes options res keep (some B)
          params seed).result = .error (.keyError k)
      ∧ (GalMagDiskField.compute_field gen nModes options res keep (some B)
          params seed).genCalls = [])
    ∧ (∃ k, k ∈ ["halo_radius", "halo_rotation_normalization",
        "halo_turbulent_diffusivity", "halo_alpha_effect"]
      ∧ alistGet params' k = none
      ∧ (GalMagHaloField.compute_field gen' options' res' keep' (some B')
          params' seed').result = .error (.keyError k)
      ∧ (GalMagHaloField.compute_field gen' options' res' keep' (some B')
          params' seed').genCalls = [])
    ∧ (∃ nrm Ra Ro,
        GalMagDiskField.disk_mode_norm nModes₂ params₂ = .ok nrm
        ∧ GalMagDiskField.compute_field gen₂ nModes₂ options₂ res₂ keep₂
            (some B₂) params₂ seed₂
          = ⟨.ok (buildBArray res₂ B₂),
             pmapErase (pmapErase (pmapErase
               (pmapSet (pmapSet (pmapSet params₂ "disk_modes_normalization"
                 (PVal.arr nrm)) "disk_turbulent_induction" (PVal.num Ra))
                 "disk_dynamo_number" (PVal.num (Ra * Ro)))
               "disk_modes_normalization") "disk_dynamo_number")
               "disk_turbulent_induction",
             some B₂, []⟩)
    ∧ (∃ Ra Ro,
        GalMagHaloField.compute_field gen₂' options₂' res₂' keep₂' (some B₂')
            params₂' seed₂'
          = ⟨.ok (buildBArray res₂' B₂'),
             pmapErase (pmapErase
               (pmapSet (pmapSet params₂' "halo_turbulent_induction"
                 (PVal.num Ra)) "halo_rotation_induction" (PVal.num Ro))
               "halo_rotation_induction") "halo_turbulent_induction",
             some B₂', []⟩) :=
  ⟨disk_missing_physical_param_raises gen nModes options res keep (some B)
      params seed norm hmn hmiss,
   halo_missing_physical_param_raises gen' options' res' keep' (some B')
      params' seed' hmiss',
   disk_cache_hit_success_shape gen₂ nModes₂ options₂ res₂ keep₂ B₂ params₂
      seed₂ hok,
   halo_cache_hit_success_shape gen₂' options₂' res₂' keep₂' B₂' params₂'
      seed₂' hok'⟩

/-- Witness for C10 at concrete cached states. -/
theorem cache_hit_still_reads_params_witness :
    ∃ k, k ∈ ["disk_height", "disk_shear_normalization", "disk_alpha_effect",
        "disk_turbulent_diffusivity"]
      ∧ alistGet ([] : PMap) k = none
      ∧ (GalMagDiskField.compute_field gen0 1
          GalMagDiskField.disk_field_options (2, 3, 4) true
          (some ⟨1, 2, 3⟩) [] 0).result = .error (.keyError k)
      ∧ (GalMagDiskField.compute_field gen0 1
          GalMagDiskField.disk_field_options (2, 3, 4) true
          (some ⟨1, 2, 3⟩) [] 0).genCalls = [] :=
  (cache_hit_still_reads_params gen0 gen0 gen0 gen0 1 1
    GalMagDiskField.disk_field_options GalMagHaloField.halo_field_options
    GalMagDiskField.disk_field_options GalMagHaloField.halo_field_options
    (2, 3, 4) (2, 3, 4) (2, 3, 4) (2, 3, 4) true true true true
    ⟨1, 2, 3⟩ ⟨1, 2, 3⟩ ⟨1, 2, 3⟩ ⟨1, 2, 3⟩
    [] [] disk_demo_params halo_demo_params 0 0 0 0 [0]
    rfl (Or.inl rfl) (Or.inl rfl) (by decide) (by decide)).1
